import Mathlib

/-!
Shallow embedding of the consent-gated Open Banking access-control layer of
the FinanceNews repository (`src/openbanking/consent.js`,
`src/openbanking/middleware.js`, and the auth/route modules), together with
proofs of the specification's testable properties.

JavaScript `Date` values are modelled as `Int` Unix-millisecond timestamps;
`Map` objects are modelled as association lists with first-match lookup and
in-place replacement on `set`; the nondeterministic inputs of the code
(uuids, `Date.now()`) are passed as explicit arguments.
-/

namespace OpenBanking

/-- Consent status values used by `ConsentManager` (consent.js). -/
inductive Status where
  | pending
  | granted
  | rejected
  | revoked
  | expired
  deriving DecidableEq

/-- The string rendering of a status, as interpolated into the
`Consent status is ...` error message of `validateConsent`. -/
def statusText : Status → String
  | .pending => "pending"
  | .granted => "granted"
  | .rejected => "rejected"
  | .revoked => "revoked"
  | .expired => "expired"

/-- A consent record, as built by `ConsentManager.createConsent`.
Timestamps are Unix milliseconds. -/
structure Consent where
  consentId : String
  tppId : String
  userId : String
  permissions : List String
  status : Status
  createdAt : Int
  expiresAt : Int
  validityPeriod : Nat
  accessCount : Nat
  lastAccessed : Option Int
  grantedAt : Option Int := none
  revokedAt : Option Int := none
  revocationReason : Option String := none
  deriving DecidableEq

/-- One entry of a consent's history log (`addToHistory`). -/
structure HistoryEntry where
  action : String
  details : String
  timestamp : Int
  deriving DecidableEq

/-- `Map.get`: first-match lookup in an association list. -/
def mapGet {α : Type} : List (String × α) → String → Option α
  | [], _ => none
  | (k, v) :: rest, k' => if k = k' then some v else mapGet rest k'

/-- `Map.set`: replace the binding of a key, or append a fresh one. -/
def mapSet {α : Type} : List (String × α) → String → α → List (String × α)
  | [], k, v => [(k, v)]
  | (k', v') :: rest, k, v =>
      if k' = k then (k, v) :: rest else (k', v') :: mapSet rest k v

/-- The module-level state of consent.js: the `consentStore` and
`consentHistory` maps. -/
structure RegistryState where
  store : List (String × Consent)
  history : List (String × List HistoryEntry)
  deriving DecidableEq

/-- The duck-typed `{success/valid, error, ...}` result objects of the
source, as a tagged sum. -/
inductive Outcome (α : Type) where
  | ok (val : α)
  | err (msg : String)
  deriving DecidableEq

/-- Milliseconds in a day (`expiresAt.setDate(getDate() + validityPeriod)`). -/
def dayMs : Int := 86400000

/-- `ConsentManager.addToHistory`: append one entry to a consent's
history list, creating the list if absent. -/
def addToHistory (s : RegistryState) (consentId action details : String)
    (now : Int) : RegistryState :=
  let prev := (mapGet s.history consentId).getD []
  { s with history :=
      mapSet s.history consentId (prev ++ [⟨action, details, now⟩]) }

/-- `ConsentManager.createConsent`: store a fresh `pending` consent and log
a `created` history entry.  The uuid (`consentId`) and creation time are
passed in explicitly. -/
def createConsent (s : RegistryState) (consentId tppId userId : String)
    (permissions : List String) (now : Int) (validityPeriod : Nat := 90) :
    RegistryState × Consent :=
  let consent : Consent :=
    { consentId := consentId
      tppId := tppId
      userId := userId
      permissions := permissions
      status := .pending
      createdAt := now
      expiresAt := now + (validityPeriod : Int) * dayMs
      validityPeriod := validityPeriod
      accessCount := 0
      lastAccessed := none }
  let s1 : RegistryState := { s with store := mapSet s.store consentId consent }
  (addToHistory s1 consentId "created" "Consent request created" now, consent)

/-- `ConsentManager.grantConsent` (the spec's `decide`): transition a
`pending` consent to `granted` or `rejected`. -/
def grantConsent (s : RegistryState) (consentId : String)
    (userConfirmation : Bool) (now : Int) :
    RegistryState × Outcome Consent :=
  match mapGet s.store consentId with
  | none => (s, .err "Consent not found")
  | some consent =>
    if consent.status ≠ .pending then
      (s, .err "Consent is not in pending state")
    else if userConfirmation then
      let consent' := { consent with status := .granted, grantedAt := some now }
      let s1 : RegistryState := { s with store := mapSet s.store consentId consent' }
      (addToHistory s1 consentId "granted" "User granted consent" now, .ok consent')
    else
      let consent' := { consent with status := .rejected }
      let s1 : RegistryState := { s with store := mapSet s.store consentId consent' }
      (addToHistory s1 consentId "rejected" "User rejected consent" now, .ok consent')

/-- `ConsentManager.revokeConsent`: set status to `revoked` for any found
consent (the source performs no status check). -/
def revokeConsent (s : RegistryState) (consentId reason : String) (now : Int) :
    RegistryState × Outcome Consent :=
  match mapGet s.store consentId with
  | none => (s, .err "Consent not found")
  | some consent =>
    let consent' := { consent with
      status := .revoked, revokedAt := some now, revocationReason := some reason }
    let s1 : RegistryState := { s with store := mapSet s.store consentId consent' }
    (addToHistory s1 consentId "revoked" reason now, .ok consent')

/-- `ConsentManager.validateConsent`: the four-branch validity check with
the expiry auto-flip and access tracking. -/
def validateConsent (s : RegistryState) (consentId requiredPermission : String)
    (now : Int) : RegistryState × Outcome Consent :=
  match mapGet s.store consentId with
  | none => (s, .err "Consent not found")
  | some consent =>
    if consent.status ≠ .granted then
      (s, .err ("Consent status is " ++ statusText consent.status))
    else if consent.expiresAt < now then
      let consent' := { consent with status := .expired }
      let s1 : RegistryState := { s with store := mapSet s.store consentId consent' }
      (addToHistory s1 consentId "expired" "Consent automatically expired" now,
       .err "Consent has expired")
    else if requiredPermission ∉ consent.permissions then
      (s, .err "Permission not granted in consent")
    else
      let consent' := { consent with
        accessCount := consent.accessCount + 1, lastAccessed := some now }
      ({ s with store := mapSet s.store consentId consent' }, .ok consent')

/-- `ConsentManager.getConsent`. -/
def getConsent (s : RegistryState) (consentId : String) : Outcome Consent :=
  match mapGet s.store consentId with
  | none => .err "Consent not found"
  | some c => .ok c

/-- `ConsentManager.getConsentHistory` (`|| []` default). -/
def getConsentHistory (s : RegistryState) (consentId : String) :
    List HistoryEntry :=
  (mapGet s.history consentId).getD []

/-- One iteration of the `cleanupExpiredConsents` loop body. -/
def cleanupStep (now : Int) (acc : RegistryState × Nat)
    (kv : String × Consent) : RegistryState × Nat :=
  if kv.2.status = .granted ∧ kv.2.expiresAt < now then
    let c' := { kv.2 with status := .expired }
    (addToHistory { acc.1 with store := mapSet acc.1.store kv.1 c' }
       kv.1 "expired" "Automatically expired during cleanup" now,
     acc.2 + 1)
  else acc

/-- `ConsentManager.cleanupExpiredConsents`: flip every `granted` consent
past its `expiresAt` to `expired`, counting the flips. -/
def cleanupExpiredConsents (s : RegistryState) (now : Int) :
    RegistryState × Nat :=
  s.store.foldl (cleanupStep now) (s, 0)

/-- The `POST /consent` route handler (routes.js) wrapped around
`createConsent`: `userId` and `permissions` are rejected when absent
(`undefined`/non-array, modelled as `none`) or, for `userId`, the empty
(falsy) string; `validityPeriod` defaults to 90 when absent. -/
def postConsent (s : RegistryState) (tppId : String) (userId : Option String)
    (permissions : Option (List String)) (validityPeriod : Option Nat)
    (consentId : String) (now : Int) : RegistryState × Outcome Consent :=
  match userId, permissions with
  | some u, some ps =>
    if u = "" then (s, .err "Missing userId or permissions")
    else
      let r := createConsent s consentId tppId u ps now (validityPeriod.getD 90)
      (r.1, .ok r.2)
  | _, _ => (s, .err "Missing userId or permissions")

/-! ### TokenAuthority (the auth module)

The auth module signs JWTs with `jsonwebtoken` and hashes client secrets
with `bcryptjs`; both collaborator libraries are modelled algebraically: a
signed token is its payload tagged with the signing key, and a bcrypt hash
is an injective tagging of the plaintext, so that `verify`/`compare`
succeed exactly on the matching key/plaintext. -/

/-- The JWT payload minted by `authenticateTPP`: the embedded claims plus
the expiry instant (`expiresIn: '1h'`). -/
structure TokenPayload where
  clientId : String
  tppId : String
  scopes : List String
  exp : Int
  deriving DecidableEq

/-- Model of a signed JWT: payload plus the key it was signed with. -/
structure SignedToken where
  payload : TokenPayload
  sig : String
  deriving DecidableEq

/-- Milliseconds in one hour (the fixed `JWT_EXPIRY = '1h'`). -/
def hourMs : Int := 3600000

/-- Model of `jwt.sign(payload, secret, {expiresIn: '1h'})`. -/
def jwtSign (clientId tppId : String) (scopes : List String) (secret : String)
    (now : Int) : SignedToken :=
  { payload := { clientId := clientId, tppId := tppId, scopes := scopes,
                 exp := now + hourMs },
    sig := secret }

/-- `OpenBankingAuth.verifyToken`: model of `jwt.verify` plus the catch-all
error — succeeds iff the token was signed with the same secret and its
expiry instant has not been reached. -/
def verifyToken (t : SignedToken) (secret : String) (now : Int) :
    Outcome TokenPayload :=
  if t.sig = secret ∧ now < t.payload.exp then .ok t.payload
  else .err "Invalid or expired token"

/-- Model of `bcrypt.hashSync`: an injective one-way tagging. -/
def bcryptHash (s : String) : String := "bcrypt$2b$10$" ++ s

/-- Model of `bcrypt.compare(plain, hash)`. -/
def bcryptCompare (plain hash : String) : Bool := bcryptHash plain == hash

/-- A registered TPP as stored in the `tppRegistry` map (auth module);
`clientSecret` holds the bcrypt hash. -/
structure TPP where
  id : String
  name : String
  clientId : String
  clientSecret : String
  scopes : List String
  status : String
  registeredAt : Int
  deriving DecidableEq

/-- The record returned by `registerTPP` — carries the plaintext secret. -/
structure TPPView where
  id : String
  name : String
  clientId : String
  clientSecret : String
  scopes : List String
  deriving DecidableEq

/-- `OpenBankingAuth.authenticateTPP`: look up the TPP by `clientId`,
require `active` status and a matching secret, then mint a 1-hour token
embedding `clientId`/`tppId`/`scopes`. -/
def authenticateTPP (registry : List (String × TPP)) (secret : String)
    (clientId clientSecret : String) (now : Int) :
    Outcome (SignedToken × TPP) :=
  match mapGet registry clientId with
  | none => .err "Invalid client credentials"
  | some tpp =>
    if tpp.status ≠ "active" then .err "Invalid client credentials"
    else if ¬ bcryptCompare clientSecret tpp.clientSecret then
      .err "Invalid client credentials"
    else .ok (jwtSign tpp.clientId tpp.id tpp.scopes secret now, tpp)

/-- `OpenBankingAuth.registerTPP`: generate `tpp_<now>`/`client_<now>`
identifiers and a `secret_<uuid>` secret, store the TPP with the hashed
secret and `active` status, and return the view with the plaintext secret. -/
def registerTPP (registry : List (String × TPP)) (name : String)
    (scopes : List String) (nowMs : Int) (uuid : String) :
    List (String × TPP) × TPPView :=
  let tppId := "tpp_" ++ toString nowMs
  let clientId := "client_" ++ toString nowMs
  let clientSecret := "secret_" ++ uuid
  let tpp : TPP :=
    { id := tppId, name := name, clientId := clientId,
      clientSecret := bcryptHash clientSecret, scopes := scopes,
      status := "active", registeredAt := nowMs }
  (mapSet registry clientId tpp,
   { id := tppId, name := name, clientId := clientId,
     clientSecret := clientSecret, scopes := scopes })

/-! ### RateLimiter (middleware.js `rateLimit`) -/

/-- Milliseconds in the sliding rate-limit window. -/
def windowMs : Int := 60000

/-- One rate-limit check for a single client identity: filter the stored
timestamps to those strictly inside the trailing window, deny (leaving the
store untouched) when the filtered count has reached the limit, otherwise
record `now` and allow. -/
def rateCheck (limit : Nat) (requests : List Int) (now : Int) :
    Bool × List Int :=
  let recent := requests.filter (fun ts => decide (now - windowMs < ts))
  if limit ≤ recent.length then (false, requests)
  else (true, recent ++ [now])

/-- A sequence of rate-limit checks for one identity, returning the
allow/deny verdicts in order plus the final window. -/
def rateRun (limit : Nat) (requests : List Int) (times : List Int) :
    List Bool × List Int :=
  match times with
  | [] => ([], requests)
  | t :: rest =>
    let r := rateCheck limit requests t
    let r' := rateRun limit r.2 rest
    (r.1 :: r'.1, r'.2)

/-! ### Concrete test fixtures (used by witnesses and counterexamples) -/

/-- A concrete currently valid granted consent. -/
def cGranted : Consent :=
  { consentId := "c1", tppId := "tpp_001", userId := "u1",
    permissions := ["account_info"], status := .granted, createdAt := 0,
    expiresAt := 100, validityPeriod := 90, accessCount := 0,
    lastAccessed := none }

/-- Store holding `cGranted` under key `c1`. -/
def sGranted : RegistryState :=
  { store := [("c1", cGranted)], history := [] }

/-- A granted consent whose expiry instant (10) is already in the past. -/
def cStale : Consent :=
  { consentId := "c1", tppId := "tpp_001", userId := "u1",
    permissions := ["account_info"], status := .granted, createdAt := 0,
    expiresAt := 10, validityPeriod := 90, accessCount := 0,
    lastAccessed := none }

/-- Store holding `cStale` under key `c1`. -/
def sStale : RegistryState :=
  { store := [("c1", cStale)], history := [] }

/-- A consent already in the terminal `expired` status. -/
def cDead : Consent :=
  { consentId := "c1", tppId := "tpp_001", userId := "u1",
    permissions := ["account_info"], status := .expired, createdAt := 0,
    expiresAt := 10, validityPeriod := 90, accessCount := 0,
    lastAccessed := none }

/-- Store holding `cDead` under key `c1`. -/
def sDead : RegistryState :=
  { store := [("c1", cDead)], history := [] }

/-- A consent still awaiting the user's decision. -/
def cPending : Consent :=
  { consentId := "c1", tppId := "tpp_001", userId := "u1",
    permissions := ["account_info"], status := .pending, createdAt := 0,
    expiresAt := 100, validityPeriod := 90, accessCount := 0,
    lastAccessed := none }

/-- Store holding `cPending` under key `c1`. -/
def sPending : RegistryState :=
  { store := [("c1", cPending)], history := [] }

/-- The empty registry state. -/
def sEmpty : RegistryState := { store := [], history := [] }

/-- A concrete registered TPP record (secret hash of `demo_secret_001`). -/
def tppDemo : TPP :=
  { id := "tpp_001", name := "Demo Payment App", clientId := "demo_client_001",
    clientSecret := bcryptHash "demo_secret_001",
    scopes := ["account_info", "payment_initiation"], status := "active",
    registeredAt := 0 }

/-- A registry holding `tppDemo` under its client id. -/
def tppRegistryDemo : List (String × TPP) :=
  [("demo_client_001", tppDemo)]

/-! ### Map lemmas -/

theorem mapGet_mapSet_self {α : Type} (m : List (String × α)) (k : String)
    (v : α) : mapGet (mapSet m k v) k = some v := by
  induction m with
  | nil => simp [mapGet, mapSet]
  | cons kv rest ih =>
    obtain ⟨k', v'⟩ := kv
    by_cases h : k' = k
    · simp [mapSet, h, mapGet]
    · simp [mapSet, h, mapGet, ih]

theorem mapGet_mapSet_ne {α : Type} (m : List (String × α)) {k k' : String}
    (v : α) (h : k' ≠ k) : mapGet (mapSet m k v) k' = mapGet m k' := by
  have hne : ¬ k = k' := fun he => h he.symm
  induction m with
  | nil => simp [mapGet, mapSet, hne]
  | cons kv rest ih =>
    obtain ⟨k0, v0⟩ := kv
    by_cases h0 : k0 = k
    · subst h0
      simp [mapSet, mapGet, hne]
    · simp [mapSet, h0, mapGet, ih]

theorem mapGet_of_mem_nodup {α : Type} {l : List (String × α)} {c : α}
    {id : String} (hnd : (l.map Prod.fst).Nodup) (hget : mapGet l id = some c) :
    ∀ kv ∈ l, kv.1 = id → kv.2 = c := by
  induction l with
  | nil => intro kv hkv; cases hkv
  | cons kv0 rest ih =>
    obtain ⟨k0, v0⟩ := kv0
    rw [List.map_cons, List.nodup_cons] at hnd
    intro kv hkv hkey
    rcases List.mem_cons.mp hkv with h | h
    · subst h
      have hk0 : k0 = id := hkey
      simp only [mapGet] at hget
      rw [if_pos hk0] at hget
      exact Option.some.inj hget
    · by_cases hk : k0 = id
      · have hmem : kv.1 ∈ rest.map Prod.fst := List.mem_map_of_mem Prod.fst h
        rw [hkey, ← hk] at hmem
        exact absurd hmem hnd.1
      · simp only [mapGet] at hget
        rw [if_neg hk] at hget
        exact ih hnd.2 hget kv h hkey

/-! ### History lemmas -/

theorem addToHistory_store (s : RegistryState) (id a d : String) (t : Int) :
    (addToHistory s id a d t).store = s.store := rfl

theorem getConsentHistory_addToHistory_self (s : RegistryState)
    (id a d : String) (t : Int) :
    getConsentHistory (addToHistory s id a d t) id =
      getConsentHistory s id ++ [⟨a, d, t⟩] := by
  simp [getConsentHistory, addToHistory, mapGet_mapSet_self]

theorem getConsentHistory_addToHistory_ne {j id : String} (h : j ≠ id)
    (s : RegistryState) (a d : String) (t : Int) :
    getConsentHistory (addToHistory s id a d t) j = getConsentHistory s j := by
  simp [getConsentHistory, addToHistory, mapGet_mapSet_ne _ _ h]

theorem mapGet_addToHistory_self (s : RegistryState) (id a d : String)
    (t : Int) :
    mapGet (addToHistory s id a d t).history id =
      some ((mapGet s.history id).getD [] ++ [⟨a, d, t⟩]) := by
  simp [addToHistory, mapGet_mapSet_self]

theorem mapGet_addToHistory_ne {j id : String} (h : j ≠ id)
    (s : RegistryState) (a d : String) (t : Int) :
    mapGet (addToHistory s id a d t).history j = mapGet s.history j := by
  simp [addToHistory, mapGet_mapSet_ne _ _ h]

/-! ### Cleanup lemmas -/

theorem foldl_cleanupStep_mapGet (now : Int) (l : List (String × Consent)) :
    ∀ (acc : RegistryState × Nat) (id : String),
      (∀ kv ∈ l, kv.1 = id → ¬(kv.2.status = .granted ∧ kv.2.expiresAt < now)) →
      mapGet (l.foldl (cleanupStep now) acc).1.store id = mapGet acc.1.store id := by
  induction l with
  | nil => intro acc id _; rfl
  | cons kv rest ih =>
    intro acc id h
    rw [List.foldl_cons,
      ih _ id (fun kv' hkv' => h kv' (List.mem_cons_of_mem _ hkv'))]
    by_cases hc : kv.2.status = .granted ∧ kv.2.expiresAt < now
    · have hne : id ≠ kv.1 :=
        fun he => h kv (List.mem_cons_self _ _) he.symm hc
      simp [cleanupStep, hc, addToHistory, mapGet_mapSet_ne _ _ hne]
    · simp [cleanupStep, hc]

/-- Helper: `validateConsent` on a consent whose status is not `granted`
returns the wrong-status error and leaves the state unchanged. -/
theorem validateConsent_not_granted (t : RegistryState) (id perm : String)
    (now : Int) (c : Consent) (hc : mapGet t.store id = some c)
    (hne : c.status ≠ .granted) :
    validateConsent t id perm now =
      (t, .err ("Consent status is " ++ statusText c.status)) := by
  simp [validateConsent, hc, hne]

/-! ### Claim theorems -/

/-- C1: `validateConsent` succeeds iff the consent exists, its status is
`granted`, the current time has not passed `expiresAt`, and the required
permission is in its permission set; each other combination fails with the
matching error kind (NotFound / NotGranted / Expired / PermissionDenied),
and on success the access count is incremented and `lastAccessed` set. -/
theorem validateConsent_spec (s : RegistryState) (id perm : String) (now : Int) :
    ((∃ c, (validateConsent s id perm now).2 = .ok c) ↔
      (∃ c, mapGet s.store id = some c ∧ c.status = .granted ∧
        now ≤ c.expiresAt ∧ perm ∈ c.permissions))
    ∧ (mapGet s.store id = none →
        (validateConsent s id perm now).2 = .err "Consent not found")
    ∧ (∀ c, mapGet s.store id = some c → c.status ≠ .granted →
        (validateConsent s id perm now).2 =
          .err ("Consent status is " ++ statusText c.status))
    ∧ (∀ c, mapGet s.store id = some c → c.status = .granted →
        c.expiresAt < now →
        (validateConsent s id perm now).2 = .err "Consent has expired")
    ∧ (∀ c, mapGet s.store id = some c → c.status = .granted →
        now ≤ c.expiresAt → perm ∉ c.permissions →
        (validateConsent s id perm now).2 =
          .err "Permission not granted in consent")
    ∧ (∀ c, mapGet s.store id = some c → c.status = .granted →
        now ≤ c.expiresAt → perm ∈ c.permissions →
        (validateConsent s id perm now).2 =
            .ok { c with accessCount := c.accessCount + 1,
                         lastAccessed := some now }
          ∧ mapGet (validateConsent s id perm now).1.store id =
            some { c with accessCount := c.accessCount + 1,
                          lastAccessed := some now }) := by
  have hnf : mapGet s.store id = none →
      (validateConsent s id perm now).2 = .err "Consent not found" := by
    intro h; simp [validateConsent, h]
  have hng : ∀ c, mapGet s.store id = some c → c.status ≠ .granted →
      (validateConsent s id perm now).2 =
        .err ("Consent status is " ++ statusText c.status) := by
    intro c hc hne; simp [validateConsent, hc, hne]
  have hexp : ∀ c, mapGet s.store id = some c → c.status = .granted →
      c.expiresAt < now →
      (validateConsent s id perm now).2 = .err "Consent has expired" := by
    intro c hc hgr hlt; simp [validateConsent, hc, hgr, hlt]
  have hpd : ∀ c, mapGet s.store id = some c → c.status = .granted →
      now ≤ c.expiresAt → perm ∉ c.permissions →
      (validateConsent s id perm now).2 =
        .err "Permission not granted in consent" := by
    intro c hc hgr hle hm
    have hnl : ¬ c.expiresAt < now := not_lt.mpr hle
    simp [validateConsent, hc, hgr, hnl, hm]
  have hok : ∀ c, mapGet s.store id = some c → c.status = .granted →
      now ≤ c.expiresAt → perm ∈ c.permissions →
      (validateConsent s id perm now).2 =
          .ok { c with accessCount := c.accessCount + 1,
                       lastAccessed := some now }
        ∧ mapGet (validateConsent s id perm now).1.store id =
          some { c with accessCount := c.accessCount + 1,
                        lastAccessed := some now } := by
    intro c hc hgr hle hm
    have hnl : ¬ c.expiresAt < now := not_lt.mpr hle
    constructor
    · simp [validateConsent, hc, hgr, hnl, hm]
    · simp [validateConsent, hc, hgr, hnl, hm, mapGet_mapSet_self]
  refine ⟨?_, hnf, hng, hexp, hpd, hok⟩
  constructor
  · rintro ⟨c, hc⟩
    cases hget : mapGet s.store id with
    | none => rw [hnf hget] at hc; exact absurd hc (by simp)
    | some c0 =>
      by_cases hgr : c0.status = .granted
      · by_cases hlt : c0.expiresAt < now
        · rw [hexp c0 hget hgr hlt] at hc; exact absurd hc (by simp)
        · have hle : now ≤ c0.expiresAt := not_lt.mp hlt
          by_cases hm : perm ∈ c0.permissions
          · exact ⟨c0, rfl, hgr, hle, hm⟩
          · rw [hpd c0 hget hgr hle hm] at hc; exact absurd hc (by simp)
      · rw [hng c0 hget hgr] at hc; exact absurd hc (by simp)
  · rintro ⟨c, hc, hgr, hle, hm⟩
    exact ⟨_, (hok c hc hgr hle hm).1⟩

theorem validateConsent_spec_witness :
    (validateConsent sGranted "c1" "account_info" 50).2 =
      .ok { cGranted with accessCount := 1, lastAccessed := some 50 } := by
  have h := (validateConsent_spec sGranted "c1" "account_info" 50).2.2.2.2.2
  exact (h cGranted (by decide) (by decide) (by decide) (by decide)).1

/-- C10: whenever `validateConsent` fails for a reason other than the
expiry flip (not found, wrong status, permission missing), the registry
state — store and history — is returned entirely unchanged. -/
theorem validateConsent_failure_frame (s : RegistryState) (id perm : String)
    (now : Int) :
    (mapGet s.store id = none →
      validateConsent s id perm now = (s, .err "Consent not found"))
    ∧ (∀ c, mapGet s.store id = some c → c.status ≠ .granted →
        validateConsent s id perm now =
          (s, .err ("Consent status is " ++ statusText c.status)))
    ∧ (∀ c, mapGet s.store id = some c → c.status = .granted →
        now ≤ c.expiresAt → perm ∉ c.permissions →
        validateConsent s id perm now =
          (s, .err "Permission not granted in consent")) := by
  refine ⟨?_, ?_, ?_⟩
  · intro h; simp [validateConsent, h]
  · intro c hc hne; simp [validateConsent, hc, hne]
  · intro c hc hgr hle hm
    have hnl : ¬ c.expiresAt < now := not_lt.mpr hle
    simp [validateConsent, hc, hgr, hnl, hm]

theorem validateConsent_failure_frame_witness :
    validateConsent sGranted "missing" "account_info" 50 =
      (sGranted, .err "Consent not found") := by
  exact (validateConsent_failure_frame sGranted "missing" "account_info" 50).1
    (by decide)

/-- C2 counterexample: after the first `validateConsent` call flips a
stale granted consent to `expired`, the second call fails through the
wrong-status branch with `Consent status is expired` — not with the
Expired kind's `Consent has expired` — so subsequent calls do not fail
with the expired error kind. -/
theorem validateConsent_second_call_kind_cex :
    ((validateConsent sStale "c1" "account_info" 11).2 =
      .err "Consent has expired")
    ∧ ((validateConsent (validateConsent sStale "c1" "account_info" 11).1
          "c1" "account_info" 12).2 = .err "Consent status is expired")
    ∧ ((validateConsent (validateConsent sStale "c1" "account_info" 11).1
          "c1" "account_info" 12).2 ≠ .err "Consent has expired") := by
  decide

/-- C2 amended: the first `validateConsent` call on a granted consent past
`expiresAt` flips it to `expired`, appends an `expired` history entry and
rejects with the Expired kind; afterwards `getConsent` shows `expired` and
every subsequent `validateConsent` call fails through the wrong-status
branch with `Consent status is expired` (idempotent failure, no further
state change). -/
theorem validateConsent_expiry_flip (s : RegistryState) (id perm : String)
    (now : Int) (c : Consent) (hc : mapGet s.store id = some c)
    (hgr : c.status = .granted) (hlt : c.expiresAt < now) :
    (validateConsent s id perm now).2 = .err "Consent has expired"
    ∧ mapGet (validateConsent s id perm now).1.store id =
        some { c with status := .expired }
    ∧ getConsent (validateConsent s id perm now).1 id =
        .ok { c with status := .expired }
    ∧ getConsentHistory (validateConsent s id perm now).1 id =
        getConsentHistory s id ++
          [⟨"expired", "Consent automatically expired", now⟩]
    ∧ (∀ perm' now', validateConsent (validateConsent s id perm now).1
          id perm' now' =
        ((validateConsent s id perm now).1,
         .err "Consent status is expired")) := by
  have hstore : mapGet (validateConsent s id perm now).1.store id =
      some { c with status := .expired } := by
    simp [validateConsent, hc, hgr, hlt, addToHistory, mapGet_mapSet_self]
  refine ⟨?_, hstore, ?_, ?_, ?_⟩
  · simp [validateConsent, hc, hgr, hlt]
  · simp [getConsent, hstore]
  · have h1 : (validateConsent s id perm now).1 =
        addToHistory { s with store := mapSet s.store id { c with status := .expired } }
          id "expired" "Consent automatically expired" now := by
      simp [validateConsent, hc, hgr, hlt]
    rw [h1, getConsentHistory_addToHistory_self]
    rfl
  · intro perm' now'
    have hstep := validateConsent_not_granted (validateConsent s id perm now).1
      id perm' now' { c with status := .expired } hstore (by simp)
    rw [hstep]
    rfl

theorem validateConsent_expiry_flip_witness :
    ((validateConsent sStale "c1" "account_info" 11).2 =
      .err "Consent has expired")
    ∧ getConsent (validateConsent sStale "c1" "account_info" 11).1 "c1" =
      .ok { cStale with status := .expired } := by
  have h := validateConsent_expiry_flip sStale "c1" "account_info" 11 cStale
    (by decide) (by decide) (by decide)
  exact ⟨h.1, h.2.2.1⟩

/-- C3 counterexample: `revokeConsent` performs no status check, so it
moves a consent out of the terminal `expired` status into `revoked`,
contradicting both the one-directionality invariant and the claim that
revocation succeeds only from a non-terminal state. -/
theorem revokeConsent_terminal_cex :
    (revokeConsent sDead "c1" "User revoked" 5).2 =
      .ok { cDead with status := .revoked, revokedAt := some 5,
                       revocationReason := some "User revoked" }
    ∧ mapGet (revokeConsent sDead "c1" "User revoked" 5).1.store "c1" =
      some { cDead with status := .revoked, revokedAt := some 5,
                        revocationReason := some "User revoked" } := by
  decide

/-- C3 amended: `grantConsent`, `validateConsent` and
`cleanupExpiredConsents` never move a consent out of a terminal status
(`rejected` or `expired`), but `revokeConsent` sets the status to
`revoked` from any existing state, terminal states included (it performs
no status check). -/
theorem terminal_status_transitions (s : RegistryState)
    (id perm reason : String) (now : Int) (approved : Bool) (c : Consent)
    (hc : mapGet s.store id = some c)
    (hterm : c.status = .rejected ∨ c.status = .expired) :
    grantConsent s id approved now =
      (s, .err "Consent is not in pending state")
    ∧ validateConsent s id perm now =
      (s, .err ("Consent status is " ++ statusText c.status))
    ∧ ((s.store.map Prod.fst).Nodup →
        mapGet (cleanupExpiredConsents s now).1.store id = some c)
    ∧ (revokeConsent s id reason now).2 =
        .ok { c with status := .revoked, revokedAt := some now,
                     revocationReason := some reason }
    ∧ mapGet (revokeConsent s id reason now).1.store id =
        some { c with status := .revoked, revokedAt := some now,
                      revocationReason := some reason } := by
  have hnp : c.status ≠ .pending := by
    rcases hterm with h | h <;> rw [h] <;> simp
  have hng : c.status ≠ .granted := by
    rcases hterm with h | h <;> rw [h] <;> simp
  refine ⟨?_, ?_, ?_, ?_, ?_⟩
  · simp [grantConsent, hc, hnp]
  · simp [validateConsent, hc, hng]
  · intro hnd
    rw [cleanupExpiredConsents, foldl_cleanupStep_mapGet]
    · exact hc
    · intro kv hkv hkey hbad
      exact hng (by rw [← mapGet_of_mem_nodup hnd hc kv hkv hkey]; exact hbad.1)
  · simp [revokeConsent, hc]
  · simp [revokeConsent, hc, addToHistory, mapGet_mapSet_self]

/-- Helper: `grantConsent` on a non-pending consent fails and leaves the
state unchanged. -/
theorem grantConsent_not_pending (t : RegistryState) (id : String)
    (approved : Bool) (now : Int) (c : Consent)
    (hc : mapGet t.store id = some c) (hnp : c.status ≠ .pending) :
    grantConsent t id approved now =
      (t, .err "Consent is not in pending state") := by
  simp [grantConsent, hc, hnp]

theorem terminal_status_transitions_witness :
    grantConsent sDead "c1" true 5 =
      (sDead, .err "Consent is not in pending state")
    ∧ validateConsent sDead "c1" "account_info" 5 =
      (sDead, .err "Consent status is expired")
    ∧ mapGet (cleanupExpiredConsents sDead 5).1.store "c1" = some cDead := by
  have h := terminal_status_transitions sDead "c1" "account_info"
    "User revoked" 5 true cDead (by decide) (Or.inr (by decide))
  refine ⟨h.1, ?_, h.2.2.1 (by decide)⟩
  have h2 := h.2.1
  simpa [statusText, cDead] using h2

/-- C6: on a `pending` consent, `grantConsent` (the spec's `decide`)
transitions to `granted` when approved and to `rejected` otherwise; a
second call on the now non-pending consent fails with the InvalidState
error, and an unknown id fails with NotFound. -/
theorem grantConsent_spec (s : RegistryState) (id : String)
    (approved b : Bool) (now now' : Int) :
    (mapGet s.store id = none →
      grantConsent s id approved now = (s, .err "Consent not found"))
    ∧ (∀ c, mapGet s.store id = some c → c.status ≠ .pending →
        grantConsent s id approved now =
          (s, .err "Consent is not in pending state"))
    ∧ (∀ c, mapGet s.store id = some c → c.status = .pending →
        (grantConsent s id approved now).2 =
          .ok (if approved then { c with status := .granted, grantedAt := some now }
               else { c with status := .rejected })
        ∧ mapGet (grantConsent s id approved now).1.store id =
          some (if approved then { c with status := .granted, grantedAt := some now }
                else { c with status := .rejected })
        ∧ grantConsent (grantConsent s id approved now).1 id b now' =
            ((grantConsent s id approved now).1,
             .err "Consent is not in pending state")) := by
  refine ⟨?_, ?_, ?_⟩
  · intro h; simp [grantConsent, h]
  · intro c hc hnp; exact grantConsent_not_pending s id approved now c hc hnp
  · intro c hc hp
    cases approved with
    | true =>
      have hstore : mapGet (grantConsent s id true now).1.store id =
          some { c with status := .granted, grantedAt := some now } := by
        simp [grantConsent, hc, hp, addToHistory, mapGet_mapSet_self]
      refine ⟨?_, by simpa using hstore, ?_⟩
      · simp [grantConsent, hc, hp]
      · exact grantConsent_not_pending _ id b now' _ hstore (by simp)
    | false =>
      have hstore : mapGet (grantConsent s id false now).1.store id =
          some { c with status := .rejected } := by
        simp [grantConsent, hc, hp, addToHistory, mapGet_mapSet_self]
      refine ⟨?_, by simpa using hstore, ?_⟩
      · simp [grantConsent, hc, hp]
      · exact grantConsent_not_pending _ id b now' _ hstore (by simp)

theorem grantConsent_spec_witness :
    (grantConsent sPending "c1" true 7).2 =
      .ok { cPending with status := .granted, grantedAt := some 7 }
    ∧ grantConsent (grantConsent sPending "c1" true 7).1 "c1" true 8 =
        ((grantConsent sPending "c1" true 7).1,
         .err "Consent is not in pending state") := by
  have h := (grantConsent_spec sPending "c1" true true 7 8).2.2 cPending
    (by decide) (by decide)
  exact ⟨by simpa using h.1, h.2.2⟩

/-- C7: every successful mutating call appends exactly one history entry
for the mutated consent (so the history length increases by exactly one
and the previous entries survive unchanged as a prefix), histories of
other consents are untouched, and `getConsentHistory` of a consent with
no history is the empty sequence. -/
theorem history_append_only (s : RegistryState)
    (id tppId userId reason perm : String) (ps : List String) (now : Int)
    (vp : Nat) (approved : Bool) :
    (getConsentHistory (createConsent s id tppId userId ps now vp).1 id =
        getConsentHistory s id ++ [⟨"created", "Consent request created", now⟩]
      ∧ ∀ j, j ≠ id →
        getConsentHistory (createConsent s id tppId userId ps now vp).1 j =
          getConsentHistory s j)
    ∧ (∀ c, mapGet s.store id = some c → c.status = .pending →
        getConsentHistory (grantConsent s id approved now).1 id =
          getConsentHistory s id ++
            [⟨if approved then "granted" else "rejected",
              if approved then "User granted consent" else "User rejected consent",
              now⟩]
        ∧ ∀ j, j ≠ id →
          getConsentHistory (grantConsent s id approved now).1 j =
            getConsentHistory s j)
    ∧ (∀ c, mapGet s.store id = some c →
        getConsentHistory (revokeConsent s id reason now).1 id =
          getConsentHistory s id ++ [⟨"revoked", reason, now⟩]
        ∧ ∀ j, j ≠ id →
          getConsentHistory (revokeConsent s id reason now).1 j =
            getConsentHistory s j)
    ∧ (∀ c, mapGet s.store id = some c → c.status = .granted →
        c.expiresAt < now →
        getConsentHistory (validateConsent s id perm now).1 id =
          getConsentHistory s id ++
            [⟨"expired", "Consent automatically expired", now⟩]
        ∧ ∀ j, j ≠ id →
          getConsentHistory (validateConsent s id perm now).1 j =
            getConsentHistory s j)
    ∧ (mapGet s.history id = none → getConsentHistory s id = []) := by
  refine ⟨⟨?_, ?_⟩, ?_, ?_, ?_, ?_⟩
  · simp [createConsent, mapGet_addToHistory_self, getConsentHistory]
  · intro j hj
    simp [createConsent, mapGet_addToHistory_ne hj, getConsentHistory]
  · intro c hc hp
    cases approved with
    | true =>
      refine ⟨?_, fun j hj => ?_⟩
      · simp [grantConsent, hc, hp, mapGet_addToHistory_self,
          getConsentHistory]
      · simp [grantConsent, hc, hp, mapGet_addToHistory_ne hj,
          getConsentHistory]
    | false =>
      refine ⟨?_, fun j hj => ?_⟩
      · simp [grantConsent, hc, hp, mapGet_addToHistory_self,
          getConsentHistory]
      · simp [grantConsent, hc, hp, mapGet_addToHistory_ne hj,
          getConsentHistory]
  · intro c hc
    refine ⟨?_, fun j hj => ?_⟩
    · simp [revokeConsent, hc, mapGet_addToHistory_self,
        getConsentHistory]
    · simp [revokeConsent, hc, mapGet_addToHistory_ne hj,
        getConsentHistory]
  · intro c hc hgr hlt
    refine ⟨?_, fun j hj => ?_⟩
    · simp [validateConsent, hc, hgr, hlt, mapGet_addToHistory_self,
        getConsentHistory]
    · simp [validateConsent, hc, hgr, hlt, mapGet_addToHistory_ne hj,
        getConsentHistory]
  · intro h; simp [getConsentHistory, h]

theorem history_append_only_witness :
    getConsentHistory (revokeConsent sGranted "c1" "User revoked" 9).1 "c1" =
      [⟨"revoked", "User revoked", 9⟩]
    ∧ getConsentHistory sGranted "c1" = [] := by
  have h := (history_append_only sGranted "c1" "tpp_001" "u1" "User revoked"
    "account_info" [] 9 90 true).2.2.1 cGranted (by decide)
  have he := (history_append_only sGranted "c1" "tpp_001" "u1" "User revoked"
    "account_info" [] 9 90 true).2.2.2.2 (by decide)
  exact ⟨by rw [h.1, he, List.nil_append], he⟩

/-- C8 counterexample: the `POST /consent` route accepts an empty (but
present) permissions array — `!permissions` is false for `[]` and
`Array.isArray([])` holds — so creation succeeds with a `pending` consent
whose permission set is empty instead of failing with a ValidationError. -/
theorem postConsent_empty_permissions_cex :
    (postConsent sEmpty "tpp_001" (some "u1") (some []) none "c9" 0).2 =
      .ok { consentId := "c9", tppId := "tpp_001", userId := "u1",
            permissions := [], status := .pending, createdAt := 0,
            expiresAt := 7776000000, validityPeriod := 90, accessCount := 0,
            lastAccessed := none } := by
  decide

/-- C8 amended: creation through the route fails with the validation error
only when `userId` is missing (absent or the falsy empty string) or
`permissions` is missing/not an array; an empty permissions list is
accepted. In every other case it creates a `pending` consent with
`expiresAt` equal to creation time plus the validity period (default 90
days) and appends a `created` history entry. -/
theorem postConsent_spec (s : RegistryState) (tppId : String)
    (userId : Option String) (permissions : Option (List String))
    (validityPeriod : Option Nat) (consentId : String) (now : Int) :
    ((userId = none ∨ userId = some "" ∨ permissions = none) →
      postConsent s tppId userId permissions validityPeriod consentId now =
        (s, .err "Missing userId or permissions"))
    ∧ (∀ u ps, userId = some u → u ≠ "" → permissions = some ps →
        postConsent s tppId userId permissions validityPeriod consentId now =
          ((createConsent s consentId tppId u ps now
              (validityPeriod.getD 90)).1,
           .ok (createConsent s consentId tppId u ps now
              (validityPeriod.getD 90)).2)
        ∧ (createConsent s consentId tppId u ps now
            (validityPeriod.getD 90)).2.status = .pending
        ∧ (createConsent s consentId tppId u ps now
            (validityPeriod.getD 90)).2.expiresAt =
            now + ((validityPeriod.getD 90 : Nat) : Int) * dayMs
        ∧ (createConsent s consentId tppId u ps now
            (validityPeriod.getD 90)).2.permissions = ps
        ∧ mapGet (createConsent s consentId tppId u ps now
            (validityPeriod.getD 90)).1.store consentId =
            some (createConsent s consentId tppId u ps now
              (validityPeriod.getD 90)).2
        ∧ getConsentHistory (createConsent s consentId tppId u ps now
            (validityPeriod.getD 90)).1 consentId =
            getConsentHistory s consentId ++
              [⟨"created", "Consent request created", now⟩]) := by
  constructor
  · rintro (h | h | h)
    · subst h; rfl
    · subst h
      cases permissions with
      | none => rfl
      | some ps => simp [postConsent]
    · subst h
      cases userId with
      | none => rfl
      | some u => simp [postConsent]
  · intro u ps hu hne hps
    subst hu; subst hps
    refine ⟨?_, rfl, rfl, rfl, ?_, ?_⟩
    · simp [postConsent, hne]
    · simp [createConsent, addToHistory, mapGet_mapSet_self]
    · simp [createConsent, mapGet_addToHistory_self,
        getConsentHistory]

theorem postConsent_spec_witness :
    postConsent sEmpty "tpp_001" (some "u1") (some ["account_info"]) none
        "c1" 0 =
      ((createConsent sEmpty "c1" "tpp_001" "u1" ["account_info"] 0 90).1,
       .ok (createConsent sEmpty "c1" "tpp_001" "u1" ["account_info"] 0 90).2)
    ∧ (createConsent sEmpty "c1" "tpp_001" "u1" ["account_info"] 0 90).2.status
        = .pending := by
  have h := (postConsent_spec sEmpty "tpp_001" (some "u1")
    (some ["account_info"]) none "c1" 0).2 "u1" ["account_info"]
    rfl (by decide) rfl
  exact ⟨h.1, h.2.1⟩

/-- C5: verifying a token freshly minted by `authenticateTPP` (at any time
before its 1-hour expiry) returns the payload with exactly the `clientId`,
`tppId` and `scopes` embedded at minting, and any token whose expiry has
passed fails verification with the invalid-or-expired error. -/
theorem token_roundtrip_spec (registry : List (String × TPP))
    (secret clientId clientSecret : String) (now now' : Int)
    (tok : SignedToken) (tpp : TPP) :
    (authenticateTPP registry secret clientId clientSecret now =
        .ok (tok, tpp) →
      tok.payload.clientId = tpp.clientId
      ∧ tok.payload.tppId = tpp.id
      ∧ tok.payload.scopes = tpp.scopes
      ∧ tok.payload.exp = now + hourMs
      ∧ (now' < now + hourMs → verifyToken tok secret now' = .ok tok.payload))
    ∧ (∀ t : SignedToken, t.payload.exp ≤ now →
        verifyToken t secret now = .err "Invalid or expired token") := by
  constructor
  · intro h
    cases hget : mapGet registry clientId with
    | none => simp [authenticateTPP, hget] at h
    | some tpp0 =>
      simp only [authenticateTPP, hget] at h
      split_ifs at h with h1 h2
      have hpair := Outcome.ok.inj h
      have h3 : jwtSign tpp0.clientId tpp0.id tpp0.scopes secret now = tok :=
        congrArg Prod.fst hpair
      have h4 : tpp0 = tpp := congrArg Prod.snd hpair
      subst h3; subst h4
      refine ⟨rfl, rfl, rfl, rfl, ?_⟩
      intro hlt
      simp [verifyToken, jwtSign, hlt]
  · intro t hle
    have hnl : ¬ now < t.payload.exp := not_lt.mpr hle
    simp [verifyToken, hnl]

theorem token_roundtrip_spec_witness :
    verifyToken (jwtSign "demo_client_001" "tpp_001"
        ["account_info", "payment_initiation"] "sekret" 0) "sekret" 100 =
      .ok (jwtSign "demo_client_001" "tpp_001"
        ["account_info", "payment_initiation"] "sekret" 0).payload := by
  have h := (token_roundtrip_spec tppRegistryDemo "sekret" "demo_client_001"
    "demo_secret_001" 0 100
    (jwtSign "demo_client_001" "tpp_001"
      ["account_info", "payment_initiation"] "sekret" 0) tppDemo).1
    (by decide)
  exact h.2.2.2.2 (by decide)

/-- C9: `registerTPP` returns the plaintext `secret_<uuid>` client secret
while the stored registry entry holds only its bcrypt hash (which differs
from the plaintext) with status `active`, and authenticating with the
returned `clientId` and plaintext secret succeeds, minting a token that
embeds the new TPP's id and scopes. -/
theorem registerTPP_authenticate_roundtrip (registry : List (String × TPP))
    (name : String) (scopes : List String) (nowMs now : Int)
    (uuid secret : String) :
    ((registerTPP registry name scopes nowMs uuid).2.clientSecret =
      "secret_" ++ uuid)
    ∧ mapGet (registerTPP registry name scopes nowMs uuid).1
        (registerTPP registry name scopes nowMs uuid).2.clientId =
      some { id := (registerTPP registry name scopes nowMs uuid).2.id,
             name := name,
             clientId := (registerTPP registry name scopes nowMs uuid).2.clientId,
             clientSecret := bcryptHash
               (registerTPP registry name scopes nowMs uuid).2.clientSecret,
             scopes := scopes, status := "active", registeredAt := nowMs }
    ∧ bcryptHash (registerTPP registry name scopes nowMs uuid).2.clientSecret ≠
        (registerTPP registry name scopes nowMs uuid).2.clientSecret
    ∧ authenticateTPP (registerTPP registry name scopes nowMs uuid).1 secret
        (registerTPP registry name scopes nowMs uuid).2.clientId
        (registerTPP registry name scopes nowMs uuid).2.clientSecret now =
      .ok (jwtSign (registerTPP registry name scopes nowMs uuid).2.clientId
             (registerTPP registry name scopes nowMs uuid).2.id scopes secret now,
           { id := (registerTPP registry name scopes nowMs uuid).2.id,
             name := name,
             clientId := (registerTPP registry name scopes nowMs uuid).2.clientId,
             clientSecret := bcryptHash
               (registerTPP registry name scopes nowMs uuid).2.clientSecret,
             scopes := scopes, status := "active", registeredAt := nowMs }) := by
  refine ⟨rfl, ?_, ?_, ?_⟩
  · simp [registerTPP, mapGet_mapSet_self]
  · intro h
    have hlen := congrArg String.length h
    rw [bcryptHash, String.length_append] at hlen
    have h13 : ("bcrypt$2b$10$" : String).length = 13 := rfl
    rw [h13] at hlen
    omega
  · simp [registerTPP, authenticateTPP, mapGet_mapSet_self, bcryptCompare,
      jwtSign]

theorem registerTPP_authenticate_roundtrip_witness :
    ((registerTPP [] "Demo App" ["account_info"] 5 "u-1").2.clientSecret =
      "secret_u-1")
    ∧ authenticateTPP (registerTPP [] "Demo App" ["account_info"] 5 "u-1").1
        "sekret" (registerTPP [] "Demo App" ["account_info"] 5 "u-1").2.clientId
        (registerTPP [] "Demo App" ["account_info"] 5 "u-1").2.clientSecret 0 =
      .ok (jwtSign (registerTPP [] "Demo App" ["account_info"] 5 "u-1").2.clientId
             (registerTPP [] "Demo App" ["account_info"] 5 "u-1").2.id
             ["account_info"] "sekret" 0,
           { id := (registerTPP [] "Demo App" ["account_info"] 5 "u-1").2.id,
             name := "Demo App",
             clientId := (registerTPP [] "Demo App" ["account_info"] 5
               "u-1").2.clientId,
             clientSecret := bcryptHash (registerTPP [] "Demo App"
               ["account_info"] 5 "u-1").2.clientSecret,
             scopes := ["account_info"], status := "active",
             registeredAt := 5 }) := by
  have h := registerTPP_authenticate_roundtrip [] "Demo App" ["account_info"]
    5 0 "u-1" "sekret"
  exact ⟨h.1, h.2.2.2⟩

/-! ### Rate limiter lemmas -/

theorem rateCheck_fst (limit : Nat) (w : List Int) (now : Int) :
    (rateCheck limit w now).1 =
      decide ((w.filter (fun ts => decide (now - windowMs < ts))).length <
        limit) := by
  simp only [rateCheck]
  by_cases h : limit ≤
      (w.filter (fun ts => decide (now - windowMs < ts))).length
  · rw [if_pos h]
    have hn : ¬ (w.filter (fun ts => decide (now - windowMs < ts))).length <
        limit := Nat.not_lt.mpr h
    simp [hn]
  · rw [if_neg h]
    have hl : (w.filter (fun ts => decide (now - windowMs < ts))).length <
        limit := Nat.not_le.mp h
    simp [hl]

theorem map_range_decide_of_not {p : Nat → Prop} [DecidablePred p]
    (h : ∀ i, ¬ p i) (n : Nat) :
    (List.range n).map (fun i => decide (p i)) = List.replicate n false := by
  apply List.eq_replicate_iff.mpr
  refine ⟨by simp, ?_⟩
  intro b hb
  obtain ⟨i, _, rfl⟩ := List.mem_map.mp hb
  simpa using h i

theorem map_range_decide_lt (n : Nat) :
    (List.range n).map (fun i => decide (i < n)) = List.replicate n true := by
  apply List.eq_replicate_iff.mpr
  refine ⟨by simp, ?_⟩
  intro b hb
  obtain ⟨i, hi, rfl⟩ := List.mem_map.mp hb
  simp [List.mem_range.mp hi]

theorem rateRun_in_window (limit : Nat) (a : Int) :
    ∀ (ts w : List Int), (∀ x ∈ ts, a ≤ x ∧ x < a + windowMs) →
      (∀ x ∈ w, a ≤ x ∧ x < a + windowMs) →
      (rateRun limit w ts).1 =
        (List.range ts.length).map (fun i => decide (w.length + i < limit)) := by
  intro ts
  induction ts with
  | nil => intro w _ _; simp [rateRun]
  | cons t rest ih =>
    intro w hts hw
    have hta := hts t (List.mem_cons_self _ _)
    have hfilter : w.filter (fun ts => decide (t - windowMs < ts)) = w := by
      apply List.filter_eq_self.mpr
      intro x hx
      have hxa := hw x hx
      simp only [decide_eq_true_eq]
      omega
    rw [List.length_cons, List.range_succ_eq_map, List.map_cons, List.map_map]
    by_cases hlen : limit ≤ w.length
    · have hrc : rateCheck limit w t = (false, w) := by
        simp only [rateCheck, hfilter]
        rw [if_pos hlen]
      simp only [rateRun, hrc]
      rw [ih w (fun x hx => hts x (List.mem_cons_of_mem _ hx)) hw]
      have hh : decide (w.length + 0 < limit) = false := by
        simp; omega
      rw [hh]
      congr 1
      rw [map_range_decide_of_not (p := fun i => w.length + i < limit)
        (fun i => by omega) rest.length]
      have hcomp : (fun i => decide (w.length + i < limit)) ∘ Nat.succ =
          fun i => decide (w.length + Nat.succ i < limit) := rfl
      rw [hcomp,
        map_range_decide_of_not (p := fun i => w.length + Nat.succ i < limit)
          (fun i => by omega) rest.length]
    · have hlt : w.length < limit := Nat.not_le.mp hlen
      have hrc : rateCheck limit w t = (true, w ++ [t]) := by
        simp only [rateCheck, hfilter]
        rw [if_neg hlen]
      simp only [rateRun, hrc]
      have hwt : ∀ x ∈ w ++ [t], a ≤ x ∧ x < a + windowMs := by
        intro x hx
        rcases List.mem_append.mp hx with hx | hx
        · exact hw x hx
        · rw [List.mem_singleton.mp hx]; exact hta
      rw [ih (w ++ [t]) (fun x hx => hts x (List.mem_cons_of_mem _ hx)) hwt]
      have hh : decide (w.length + 0 < limit) = true := by
        simp; omega
      rw [hh]
      congr 1
      rw [List.length_append, List.length_singleton]
      apply List.map_congr_left
      intro i _
      rw [Function.comp_apply]
      have harith : w.length + 1 + i = w.length + Nat.succ i := by omega
      rw [harith]

/-- C4: one rate-limit check computes the stored window pruned to the
trailing 60-second interval; it allows and records the current timestamp
exactly when the pruned count is below the threshold, and denies without
recording otherwise. Consequently, for `limit + 1` requests falling inside
one 60-second interval the first `limit` are admitted and the last is
denied, and once a window at the threshold contains a timestamp 60 seconds
or more in the past a new request is admitted again. -/
theorem rateLimit_spec (limit : Nat) (w : List Int) (now a t0 : Int)
    (ts : List Int) :
    ((rateCheck limit w now).1 =
      decide ((w.filter (fun ts => decide (now - windowMs < ts))).length <
        limit))
    ∧ ((w.filter (fun ts => decide (now - windowMs < ts))).length < limit →
        rateCheck limit w now =
          (true, w.filter (fun ts => decide (now - windowMs < ts)) ++ [now]))
    ∧ (limit ≤ (w.filter (fun ts => decide (now - windowMs < ts))).length →
        rateCheck limit w now = (false, w))
    ∧ (ts.length = limit + 1 → (∀ x ∈ ts, a ≤ x ∧ x < a + windowMs) →
        (rateRun limit [] ts).1 = List.replicate limit true ++ [false])
    ∧ (w.length ≤ limit → t0 ∈ w → t0 + windowMs ≤ now →
        (rateCheck limit w now).1 = true) := by
  refine ⟨rateCheck_fst limit w now, ?_, ?_, ?_, ?_⟩
  · intro h
    simp only [rateCheck]
    rw [if_neg (Nat.not_le.mpr h)]
  · intro h
    simp only [rateCheck]
    rw [if_pos h]
  · intro hlen hts
    rw [rateRun_in_window limit a ts [] hts (by simp), hlen]
    simp only [List.length_nil, Nat.zero_add]
    rw [List.range_succ, List.map_append, map_range_decide_lt, List.map_cons]
    simp
  · intro hle hmem hold
    have h1 : (w.filter (fun ts => decide (now - windowMs < ts))).length <
        w.length := by
      apply List.length_filter_lt_length_iff_exists.mpr
      refine ⟨t0, hmem, ?_⟩
      simp only [decide_eq_true_eq]
      omega
    have h2 : (w.filter (fun ts => decide (now - windowMs < ts))).length <
        limit := lt_of_lt_of_le h1 hle
    rw [rateCheck_fst]
    simp [h2]

theorem rateLimit_spec_witness :
    (rateRun 1 [] [0, 1]).1 = [true, false]
    ∧ (rateCheck 1 [0] 60000).1 = true := by
  have h4 := (rateLimit_spec 1 [] 0 0 0 [0, 1]).2.2.2.1 (by decide) (by decide)
  have h5 := (rateLimit_spec 1 [0] 60000 0 0 []).2.2.2.2 (by decide)
    (by decide) (by decide)
  exact ⟨by simpa using h4, h5⟩

end OpenBanking
